import Mathlib

/-!
Verification of the multiplayer state-synchronization core of a three.js
shooter game.  The relay is `src/server.js`; the client protocol logic lives
in `Game` (src/unnamed/part_002, first document), `Player`
(src/unnamed/part_006), `Enemy` (src/unnamed/part_001, second document),
`PhysicsManager` (src/unnamed/part_000) and `NetworkManager`
(src/src/NetworkManager.js, second document).

JavaScript numbers are IEEE-754 doubles; every numeric operation the modelled
slice performs (copies, comparisons, small integer additions and
subtractions) is exact in doubles, so numbers are embedded as `Rat`.
-/

namespace ThreeShooter

/-- A 3-component vector, standing for a `THREE.Vector3` or Euler triple. -/
structure Vec3 where
  x : Rat
  y : Rat
  z : Rat
  deriving DecidableEq, Repr

def Vec3.zero : Vec3 := ⟨0, 0, 0⟩

def Vec3.add (a b : Vec3) : Vec3 := ⟨a.x + b.x, a.y + b.y, a.z + b.z⟩

def Vec3.scale (a : Vec3) (k : Rat) : Vec3 := ⟨a.x * k, a.y * k, a.z * k⟩

/-- `Math.PI` as the exact rational value of its IEEE-754 double encoding. -/
def mathPI : Rat := 884279719003555 / 281474976710656

/-! ## Relay model (`src/server.js`)

The server keeps a global `players` object (string socket id to player
state, insertion ordered, which is what `Object.keys` enumeration follows
for such keys) and a `hostId` variable that is `null` or a socket id.
-/

/-- The per-player record the server stores (`server.js` lines 84-90). -/
structure SPlayerState where
  position : Vec3
  rotation : Vec3
  action : String
  deriving DecidableEq, Repr

/-- `{ position: {0,0,0}, rotation: {0,0,0}, action: 'Idle' }`. -/
def initialPlayerState : SPlayerState := ⟨Vec3.zero, Vec3.zero, "Idle"⟩

/-- Payload of a client `hit` emission (`NetworkManager.sendHit`). -/
structure ClientHit where
  targetId : String
  damage : Rat
  direction : Option Vec3
  deriving DecidableEq, Repr

/-- Messages the server emits to sockets. -/
inductive SMsg where
  | setHost (isHost : Bool)
  | snapshot (players : List (String × SPlayerState))
  | playerConnected (id : String) (st : SPlayerState)
  | playerUpdated (id : String) (st : SPlayerState)
  | playerHit (targetId : String) (damage : Rat) (shooterId : String)
      (direction : Option Vec3)
  | playerDisconnected (id : String)
  deriving DecidableEq, Repr

def SMsg.isSetHost : SMsg → Bool
  | .setHost _ => true
  | _ => false

def SMsg.isSnapshot : SMsg → Bool
  | .snapshot _ => true
  | _ => false

def SMsg.isPlayerConnected : SMsg → Bool
  | .playerConnected _ _ => true
  | _ => false

/-- The mutable server state: `players` registry and `hostId`. -/
structure ServerState where
  players : List (String × SPlayerState)
  hostId : Option String
  deriving DecidableEq, Repr

def ServerState.init : ServerState := ⟨[], none⟩

/-- `Object.keys(players)`: ids in connection (insertion) order. -/
def ServerState.ids (s : ServerState) : List String := s.players.map Prod.fst

/-- The `io.on('connection')` handler (`server.js` lines 73-96).  Returns the
new server state and the list of (recipient, message) emissions: `setHost`
to the new socket, the `players` snapshot to the new socket, and a
`playerConnected` broadcast to every other connected socket. -/
def connectEv (s : ServerState) (sid : String) :
    ServerState × List (String × SMsg) :=
  let hostId' := if s.hostId = none then some sid else s.hostId
  let players' := if (s.players.lookup sid).isSome then s.players
    else s.players ++ [(sid, initialPlayerState)]
  let newState := (players'.lookup sid).getD initialPlayerState
  let others := (players'.map Prod.fst).filter (fun k => k ≠ sid)
  (⟨players', hostId'⟩,
    [(sid, SMsg.setHost (hostId' = some sid)), (sid, SMsg.snapshot players')]
      ++ others.map (fun o => (o, SMsg.playerConnected sid newState)))

/-- The `socket.on('disconnect')` handler (`server.js` lines 136-152): the
entry is deleted, `playerDisconnected` goes to every still-connected socket,
and if the host left, the first remaining id in the registry is made host
and privately receives `setHost true`; with nobody left `hostId` is null. -/
def disconnectEv (s : ServerState) (sid : String) :
    ServerState × List (String × SMsg) :=
  let players' := s.players.filter (fun p => p.1 ≠ sid)
  let remaining := players'.map Prod.fst
  let leaveMsgs := remaining.map (fun r => (r, SMsg.playerDisconnected sid))
  let hostId' := if s.hostId = some sid then remaining.head? else s.hostId
  let hostMsgs := if s.hostId = some sid then
      (remaining.head?.map (fun k => (k, SMsg.setHost true))).toList
    else []
  (⟨players', hostId'⟩, leaveMsgs ++ hostMsgs)

/-- The `socket.on('updateState')` handler (`server.js` lines 98-104). -/
def updateStateEv (s : ServerState) (sid : String) (st : SPlayerState) :
    ServerState × List (String × SMsg) :=
  let present := (s.players.lookup sid).isSome
  let players' := if present
    then s.players.map (fun p => if p.1 = sid then (p.1, st) else p)
    else s.players
  let msgs := if present
    then ((players'.map Prod.fst).filter (fun k => k ≠ sid)).map
      (fun r => (r, SMsg.playerUpdated sid st))
    else []
  (⟨players', s.hostId⟩, msgs)

/-- The `socket.on('hit')` handler (`server.js` lines 111-119): `io.emit`
sends `playerHit` to every connected socket, the sender included, with
`shooterId` filled in from the sending socket. -/
def hitEv (s : ServerState) (sid : String) (d : ClientHit) :
    List (String × SMsg) :=
  (s.players.map Prod.fst).map
    (fun r => (r, SMsg.playerHit d.targetId d.damage sid d.direction))

/-- State-mutating server events (hit, shoot, ragdoll relays leave the
registry and host untouched). -/
inductive SEvent where
  | con (sid : String)
  | dis (sid : String)
  | upd (sid : String) (st : SPlayerState)
  deriving DecidableEq, Repr

def stepEv (s : ServerState) (e : SEvent) : ServerState :=
  match e with
  | .con sid => (connectEv s sid).1
  | .dis sid => (disconnectEv s sid).1
  | .upd sid st => (updateStateEv s sid st).1

/-- The server state after a trace of events, from the initial state. -/
def run (tr : List SEvent) : ServerState := tr.foldl stepEv ServerState.init

/-- Registry ids are distinct, and `hostId` is null exactly when the
registry is empty, otherwise it names a registered session. -/
def Inv (s : ServerState) : Prop :=
  (s.players.map Prod.fst).Nodup
    ∧ (s.hostId = none → s.players = [])
    ∧ (∀ h, s.hostId = some h → ∃ st, (h, st) ∈ s.players)

/-- How many connected sessions currently hold the Host role. -/
def countHosts (s : ServerState) : Nat :=
  (s.players.map Prod.fst).countP (fun k => s.hostId = some k)

theorem inv_init : Inv ServerState.init := by
  refine ⟨by simp [ServerState.init], fun _ => rfl, fun h hh => by
    simp [ServerState.init] at hh⟩

theorem map_fst_filter_ne (l : List (String × SPlayerState)) (sid : String) :
    (l.filter (fun p => p.1 ≠ sid)).map Prod.fst
      = (l.map Prod.fst).filter (fun k => k ≠ sid) := by
  rw [List.filter_map]
  rfl

theorem lookup_isSome_iff_mem (l : List (String × SPlayerState)) (sid : String) :
    (l.lookup sid).isSome = true ↔ sid ∈ l.map Prod.fst := by
  induction l with
  | nil => simp [List.lookup]
  | cons p t ih =>
      obtain ⟨k, v⟩ := p
      rw [List.map_cons, List.mem_cons]
      by_cases he : sid = k
      · simp [List.lookup, he]
      · have hb : (sid == k) = false := beq_eq_false_iff_ne.mpr he
        simp only [List.lookup, hb]
        constructor
        · intro h; exact Or.inr (ih.1 h)
        · intro h
          rcases h with h | h
          · exact absurd h he
          · exact ih.2 h

theorem map_fst_map_upd (l : List (String × SPlayerState)) (sid : String)
    (st : SPlayerState) :
    ((l.map (fun p => if p.1 = sid then (p.1, st) else p)).map Prod.fst)
      = l.map Prod.fst := by
  induction l with
  | nil => rfl
  | cons p t ih =>
      by_cases h : p.1 = sid
      · simp only [List.map_cons, ih, if_pos h]
      · simp only [List.map_cons, ih, if_neg h]

theorem inv_con (s : ServerState) (sid : String) (hs : Inv s) :
    Inv (connectEv s sid).1 := by
  obtain ⟨hnd, hnone, hsome⟩ := hs
  have hpl : (connectEv s sid).1.players
      = if (s.players.lookup sid).isSome then s.players
        else s.players ++ [(sid, initialPlayerState)] := rfl
  have hhi : (connectEv s sid).1.hostId
      = if s.hostId = none then some sid else s.hostId := rfl
  refine ⟨?_, ?_, ?_⟩
  · rw [hpl]
    by_cases hmem : (s.players.lookup sid).isSome = true
    · rw [if_pos hmem]; exact hnd
    · rw [if_neg hmem, List.map_append]
      refine List.Nodup.append hnd (by simp) ?_
      intro a ha hb
      simp only [List.map_cons, List.map_nil, List.mem_singleton] at hb
      rw [hb] at ha
      exact hmem ((lookup_isSome_iff_mem s.players sid).2 ha)
  · rw [hhi]
    by_cases hh : s.hostId = none
    · rw [if_pos hh]; intro hc; exact absurd hc (by simp)
    · rw [if_neg hh]; intro hc; exact absurd hc hh
  · intro h hh
    rw [hhi] at hh
    rw [hpl]
    by_cases hn : s.hostId = none
    · rw [if_pos hn] at hh
      have hsid : h = sid := by
        injection hh with hh'; exact hh'.symm
      subst hsid
      have hempty : s.players = [] := hnone hn
      rw [hempty]
      simp [List.lookup]
    · rw [if_neg hn] at hh
      obtain ⟨st, hst⟩ := hsome h hh
      by_cases hmem : (s.players.lookup sid).isSome = true
      · rw [if_pos hmem]; exact ⟨st, hst⟩
      · rw [if_neg hmem]; exact ⟨st, List.mem_append_left _ hst⟩

theorem inv_dis (s : ServerState) (sid : String) (hs : Inv s) :
    Inv (disconnectEv s sid).1 := by
  obtain ⟨hnd, hnone, hsome⟩ := hs
  have h1 : (disconnectEv s sid).1.players
      = s.players.filter (fun p => p.1 ≠ sid) := rfl
  have h2 : (disconnectEv s sid).1.hostId
      = if s.hostId = some sid
        then ((s.players.filter (fun p => p.1 ≠ sid)).map Prod.fst).head?
        else s.hostId := rfl
  have hnd' : ((s.players.filter (fun p => p.1 ≠ sid)).map Prod.fst).Nodup := by
    rw [map_fst_filter_ne]
    exact hnd.filter _
  refine ⟨?_, ?_, ?_⟩
  · rw [h1]; exact hnd'
  · intro hc
    rw [h2] at hc
    rw [h1]
    by_cases hh : s.hostId = some sid
    · rw [if_pos hh] at hc
      have := List.head?_eq_none_iff.mp hc
      exact List.map_eq_nil_iff.mp this
    · rw [if_neg hh] at hc
      rw [hnone hc]
      rfl
  · intro h hhh
    rw [h2] at hhh
    rw [h1]
    by_cases hh : s.hostId = some sid
    · rw [if_pos hh] at hhh
      cases hp : s.players.filter (fun p => p.1 ≠ sid) with
      | nil =>
          rw [hp] at hhh
          simp at hhh
      | cons q rest =>
          obtain ⟨k, v⟩ := q
          rw [hp] at hhh
          simp only [List.map_cons, List.head?_cons, Option.some.injEq] at hhh
          refine ⟨v, ?_⟩
          rw [← hhh]
          exact List.mem_cons_self _ _
    · rw [if_neg hh] at hhh
      obtain ⟨st, hst⟩ := hsome h hhh
      refine ⟨st, List.mem_filter.2 ⟨hst, ?_⟩⟩
      have hne : h ≠ sid := by
        intro he; apply hh; rw [hhh, he]
      simp [hne]

theorem inv_upd (s : ServerState) (sid : String) (st : SPlayerState)
    (hs : Inv s) : Inv (updateStateEv s sid st).1 := by
  obtain ⟨hnd, hnone, hsome⟩ := hs
  have h1 : (updateStateEv s sid st).1.players
      = if (s.players.lookup sid).isSome
        then s.players.map (fun p => if p.1 = sid then (p.1, st) else p)
        else s.players := rfl
  have h2 : (updateStateEv s sid st).1.hostId = s.hostId := rfl
  by_cases hmem : (s.players.lookup sid).isSome = true
  · refine ⟨?_, ?_, ?_⟩
    · rw [h1, if_pos hmem, map_fst_map_upd]; exact hnd
    · intro hc
      rw [h2] at hc
      rw [h1, if_pos hmem, hnone hc]
      rfl
    · intro h hhh
      rw [h2] at hhh
      rw [h1, if_pos hmem]
      obtain ⟨s0, hs0⟩ := hsome h hhh
      by_cases he : h = sid
      · refine ⟨st, ?_⟩
        have hf : (fun p => if p.1 = sid then (p.1, st) else p) (h, s0) = (h, st) := by
          simp [he]
        rw [← hf]
        exact List.mem_map_of_mem _ hs0
      · refine ⟨s0, ?_⟩
        have hf : (fun p => if p.1 = sid then (p.1, st) else p) (h, s0) = (h, s0) := by
          simp [he]
        rw [← hf]
        exact List.mem_map_of_mem _ hs0
  · refine ⟨?_, ?_, ?_⟩
    · rw [h1, if_neg hmem]; exact hnd
    · intro hc
      rw [h2] at hc
      rw [h1, if_neg hmem]
      exact hnone hc
    · intro h hhh
      rw [h2] at hhh
      rw [h1, if_neg hmem]
      exact hsome h hhh

theorem inv_step (s : ServerState) (e : SEvent) (hs : Inv s) :
    Inv (stepEv s e) := by
  cases e with
  | con sid => exact inv_con s sid hs
  | dis sid => exact inv_dis s sid hs
  | upd sid st => exact inv_upd s sid st hs

theorem inv_run (tr : List SEvent) : Inv (run tr) := by
  rw [run]
  have h : ∀ (l : List SEvent) (s : ServerState), Inv s → Inv (l.foldl stepEv s) := by
    intro l
    induction l with
    | nil => intro s hs; exact hs
    | cons e t ih => intro s hs; exact ih _ (inv_step s e hs)
  exact h tr ServerState.init inv_init

theorem countP_eq_one_of_nodup_mem (l : List String) (h : String)
    (hnd : l.Nodup) (hm : h ∈ l) :
    l.countP (fun k => some h = some k) = 1 := by
  induction l with
  | nil => simp at hm
  | cons a t ih =>
      rw [List.countP_cons]
      rcases List.mem_cons.1 hm with rfl | hmt
      · have hnot : h ∉ t := (List.nodup_cons.1 hnd).1
        have hz : t.countP (fun k => some h = some k) = 0 := by
          rw [List.countP_eq_zero]
          intro b hb
          simp only [decide_eq_true_eq, Option.some.injEq]
          intro he
          exact hnot (by rw [he]; exact hb)
        rw [hz]
        simp
      · have hne : a ≠ h := fun he => (List.nodup_cons.1 hnd).1 (he ▸ hmt)
        rw [ih (List.nodup_cons.1 hnd).2 hmt]
        have hfa : (decide (some h = some a)) = false := by
          simp only [Option.some.injEq, decide_eq_false_iff_not]
          intro he
          exact hne he.symm
        rw [hfa]
        simp

/-- C1.  Single-Host invariant: with at least one session connected exactly
one session holds the Host role; a session connecting while no host exists
is assigned the Host role (and is told `setHost true`), while a session
connecting while a host exists leaves the host unchanged and is told
`setHost false` (Follower). -/
theorem single_host_invariant (tr : List SEvent) (sid : String) :
    ((run tr).players ≠ [] → countHosts (run tr) = 1)
    ∧ ((run tr).hostId = none →
        (connectEv (run tr) sid).1.hostId = some sid
          ∧ (sid, SMsg.setHost true) ∈ (connectEv (run tr) sid).2)
    ∧ (∀ h, (run tr).hostId = some h → sid ≠ h →
        (connectEv (run tr) sid).1.hostId = some h
          ∧ (sid, SMsg.setHost false) ∈ (connectEv (run tr) sid).2) := by
  obtain ⟨hnd, hnone, hsome⟩ := inv_run tr
  refine ⟨?_, ?_, ?_⟩
  · intro hne
    cases hh : (run tr).hostId with
    | none => exact absurd (hnone hh) hne
    | some h =>
        obtain ⟨st, hst⟩ := hsome h hh
        have hm : h ∈ (run tr).players.map Prod.fst :=
          List.mem_map_of_mem Prod.fst hst
        unfold countHosts
        rw [hh]
        exact countP_eq_one_of_nodup_mem _ h hnd hm
  · intro hh
    constructor
    · simp [connectEv, hh]
    · simp [connectEv, hh]
  · intro h hh hne
    have hnn : ¬ (run tr).hostId = none := by rw [hh]; simp
    constructor
    · simp [connectEv, hh, hnn]
    · refine List.mem_append.2 (Or.inl ?_)
      have hb : ((if (run tr).hostId = none then some sid else (run tr).hostId)
          = some sid) = False := by
        rw [if_neg hnn, hh]
        simp only [Option.some.injEq, eq_iff_iff, iff_false]
        intro he; exact hne he.symm
      simp only [connectEv, hb]
      simp

/-- C1 witness: a two-connection trace has exactly one host; a fresh
connection on the empty server becomes Host; connecting next to an existing
host yields Follower. -/
theorem single_host_invariant_witness :
    (countHosts (run [SEvent.con "a", SEvent.con "b"]) = 1)
    ∧ ((connectEv (run []) "a").1.hostId = some "a")
    ∧ ((connectEv (run [SEvent.con "a"]) "b").1.hostId = some "a"
        ∧ ("b", SMsg.setHost false) ∈ (connectEv (run [SEvent.con "a"]) "b").2) := by
  refine ⟨?_, ?_, ?_⟩
  · exact (single_host_invariant [SEvent.con "a", SEvent.con "b"] "x").1 (by decide)
  · exact ((single_host_invariant [] "a").2.1 (by decide)).1
  · have h := (single_host_invariant [SEvent.con "a"] "b").2.2 "a" (by decide) (by decide)
    exact ⟨h.1, h.2⟩

/-- C2.  Host migration: when the host disconnects and sessions remain, the
relay gives the Host role to the first remaining registry entry (connection
order), sends `setHost true` to exactly that session (the only host
assignment message emitted, so no other remaining session gets one), and
when nobody remains the host becomes unassigned (`null`).  The `Leave`
(`playerDisconnected`) broadcast of the same handler is specified
separately in the relay section and is not a host-assignment message. -/
theorem host_migration (tr : List SEvent) (sid : String)
    (hhost : (run tr).hostId = some sid) :
    (∀ k, (((run tr).players.filter (fun p => p.1 ≠ sid)).map Prod.fst).head?
          = some k →
        (disconnectEv (run tr) sid).1.hostId = some k
          ∧ ((disconnectEv (run tr) sid).2.filter (fun m => m.2.isSetHost))
              = [(k, SMsg.setHost true)])
    ∧ ((run tr).players.filter (fun p => p.1 ≠ sid) = [] →
        (disconnectEv (run tr) sid).1.hostId = none) := by
  have h2 : (disconnectEv (run tr) sid).1.hostId
      = if (run tr).hostId = some sid
        then (((run tr).players.filter (fun p => p.1 ≠ sid)).map Prod.fst).head?
        else (run tr).hostId := rfl
  have h3 : (disconnectEv (run tr) sid).2
      = (((run tr).players.filter (fun p => p.1 ≠ sid)).map Prod.fst).map
          (fun r => (r, SMsg.playerDisconnected sid))
        ++ (if (run tr).hostId = some sid then
            ((((run tr).players.filter (fun p => p.1 ≠ sid)).map
                Prod.fst).head?.map
              (fun k => (k, SMsg.setHost true))).toList
          else []) := rfl
  have hleave : ∀ (l : List String),
      (l.map (fun r => (r, SMsg.playerDisconnected sid))).filter
        (fun m => m.2.isSetHost) = [] := by
    intro l
    induction l with
    | nil => rfl
    | cons a t ih => simp [SMsg.isSetHost, ih]
  constructor
  · intro k hk
    constructor
    · rw [h2, if_pos hhost, hk]
    · rw [h3, if_pos hhost, hk, List.filter_append, hleave]
      simp [SMsg.isSetHost]
  · intro hrem
    rw [h2, if_pos hhost, hrem]
    rfl

/-- C2 witness: host `a` of `{a, b}` disconnects; `b` (first remaining)
becomes host and is the sole recipient of `setHost true`; and when the only
session disconnects the host becomes unassigned. -/
theorem host_migration_witness :
    ((disconnectEv (run [SEvent.con "a", SEvent.con "b"]) "a").1.hostId = some "b"
      ∧ ((disconnectEv (run [SEvent.con "a", SEvent.con "b"]) "a").2.filter
          (fun m => m.2.isSetHost)) = [("b", SMsg.setHost true)])
    ∧ (disconnectEv (run [SEvent.con "a"]) "a").1.hostId = none := by
  constructor
  · exact (host_migration [SEvent.con "a", SEvent.con "b"] "a" (by decide)).1
      "b" (by decide)
  · exact (host_migration [SEvent.con "a"] "a" (by decide)).2 (by decide)

theorem lookup_append_self (l : List (String × SPlayerState)) (sid : String)
    (st : SPlayerState) (h : sid ∉ l.map Prod.fst) :
    ((l ++ [(sid, st)]).lookup sid) = some st := by
  induction l with
  | nil => simp [List.lookup]
  | cons p t ih =>
      obtain ⟨k, v⟩ := p
      have hne : sid ≠ k := fun he => h (by
        rw [List.map_cons, he]
        exact List.mem_cons_self _ _)
      have hb : (sid == k) = false := beq_eq_false_iff_ne.mpr hne
      simp only [List.cons_append, List.lookup, hb]
      exact ih (fun hm => h (List.mem_cons_of_mem _ hm))

theorem filter_pc_map_pc (l : List String) (sid : String) (ns : SPlayerState) :
    (l.map (fun o => (o, SMsg.playerConnected sid ns))).filter
      (fun m => m.2.isPlayerConnected)
        = l.map (fun o => (o, SMsg.playerConnected sid ns)) := by
  induction l with
  | nil => rfl
  | cons a t ih => simp [SMsg.isPlayerConnected, ih]

theorem filter_snap_map_pc (l : List String) (sid : String) (ns : SPlayerState) :
    (l.map (fun o => (o, SMsg.playerConnected sid ns))).filter
      (fun m => m.2.isSnapshot) = [] := by
  induction l with
  | nil => rfl
  | cons a t ih => simp [SMsg.isSnapshot, ih]

/-- C7.  Connect handshake: a fresh connection is registered under its new
id with the initial state, receives exactly one snapshot message holding
the full live registry (which is the post-connect registry), and a
`playerConnected` (Join) message carrying the new id and its initial state
goes to exactly the previously connected sessions — all others, nobody
else. -/
theorem connect_handshake (tr : List SEvent) (sid : String)
    (hfresh : sid ∉ (run tr).players.map Prod.fst) :
    ((connectEv (run tr) sid).1.players.lookup sid = some initialPlayerState)
    ∧ ((connectEv (run tr) sid).2.filter (fun m => m.2.isSnapshot)
        = [(sid, SMsg.snapshot (connectEv (run tr) sid).1.players)])
    ∧ ((connectEv (run tr) sid).2.filter (fun m => m.2.isPlayerConnected)
        = ((run tr).players.map Prod.fst).map
            (fun o => (o, SMsg.playerConnected sid initialPlayerState))) := by
  have hmem : ¬ (((run tr).players.lookup sid).isSome = true) :=
    fun hl => hfresh ((lookup_isSome_iff_mem _ _).1 hl)
  have hpl : (connectEv (run tr) sid).1.players
      = if ((run tr).players.lookup sid).isSome
        then (run tr).players
        else (run tr).players ++ [(sid, initialPlayerState)] := rfl
  have hpl' : (connectEv (run tr) sid).1.players
      = (run tr).players ++ [(sid, initialPlayerState)] := by
    rw [hpl, if_neg hmem]
  have hlook : ((run tr).players ++ [(sid, initialPlayerState)]).lookup sid
      = some initialPlayerState :=
    lookup_append_self _ sid _ hfresh
  have hns : (((connectEv (run tr) sid).1.players).lookup sid).getD
      initialPlayerState = initialPlayerState := by
    rw [hpl', hlook]
    rfl
  have hothers : (((connectEv (run tr) sid).1.players.map Prod.fst).filter
      (fun k => k ≠ sid)) = (run tr).players.map Prod.fst := by
    rw [hpl', List.map_append]
    rw [List.filter_append]
    have h1 : ((run tr).players.map Prod.fst).filter (fun k => k ≠ sid)
        = (run tr).players.map Prod.fst :=
      List.filter_eq_self.mpr (fun a ha => by
        simp only [decide_eq_true_eq]
        intro he
        rw [he] at ha
        exact hfresh ha)
    have h2 : (([(sid, initialPlayerState)].map Prod.fst).filter
        (fun k => k ≠ sid)) = [] := by simp
    rw [h1, h2, List.append_nil]
  have hms : (connectEv (run tr) sid).2
      = [(sid, SMsg.setHost
            (decide ((if (run tr).hostId = none then some sid
              else (run tr).hostId) = some sid))),
          (sid, SMsg.snapshot (connectEv (run tr) sid).1.players)]
        ++ (((connectEv (run tr) sid).1.players.map Prod.fst).filter
              (fun k => k ≠ sid)).map
            (fun o => (o, SMsg.playerConnected sid
              ((((connectEv (run tr) sid).1.players).lookup sid).getD
                initialPlayerState))) := rfl
  refine ⟨?_, ?_, ?_⟩
  · rw [hpl']
    exact hlook
  · rw [hms, List.filter_append, hns, hothers, filter_snap_map_pc]
    simp [SMsg.isSnapshot, SMsg.isSetHost]
  · rw [hms, List.filter_append, hns, hothers, filter_pc_map_pc]
    simp [SMsg.isPlayerConnected]

/-- C7 witness: `b` joins a one-session server `{a}`. -/
theorem connect_handshake_witness :
    ((connectEv (run [SEvent.con "a"]) "b").1.players.lookup "b"
        = some initialPlayerState)
    ∧ ((connectEv (run [SEvent.con "a"]) "b").2.filter (fun m => m.2.isSnapshot)
        = [("b", SMsg.snapshot (connectEv (run [SEvent.con "a"]) "b").1.players)])
    ∧ ((connectEv (run [SEvent.con "a"]) "b").2.filter
          (fun m => m.2.isPlayerConnected)
        = [("a", SMsg.playerConnected "b" initialPlayerState)]) := by
  exact connect_handshake [SEvent.con "a"] "b" (by decide)

theorem countP_map_pair (l : List String) (c : SMsg) (r : String)
    (hnd : l.Nodup) (hr : r ∈ l) :
    (l.map (fun k => (k, c))).countP (fun m => m = (r, c)) = 1 := by
  induction l with
  | nil => simp at hr
  | cons a t ih =>
      rw [List.map_cons, List.countP_cons]
      rcases List.mem_cons.1 hr with rfl | hmt
      · have hnot : r ∉ t := (List.nodup_cons.1 hnd).1
        have hz : (t.map (fun k => (k, c))).countP (fun m => m = (r, c)) = 0 := by
          rw [List.countP_eq_zero]
          intro m hm
          obtain ⟨k, hk, he⟩ := List.mem_map.1 hm
          simp only [decide_eq_true_eq]
          intro hrc
          rw [hrc] at he
          have : k = r := congrArg Prod.fst he
          rw [this] at hk
          exact hnot hk
        rw [hz]
        simp
      · have hne : a ≠ r := fun he => (List.nodup_cons.1 hnd).1 (he ▸ hmt)
        rw [ih (List.nodup_cons.1 hnd).2 hmt]
        have hfa : (decide ((a, c) = (r, c))) = false := by
          simp only [decide_eq_false_iff_not, Prod.mk.injEq]
          intro he
          exact hne he.1
        rw [hfa]
        simp

/-- C8.  HitEvent fan-out: a `hit` emission from a connected session is
broadcast by `io.emit` as `playerHit` to every connected session — the
shooter included — carrying the sender-supplied `targetId`, `damage` and
`direction` verbatim and the relay-stamped `shooterId`; each connected
session receives exactly one copy. -/
theorem hit_fanout (tr : List SEvent) (sid tgt : String) (dmg : Rat)
    (dir : Option Vec3) (hconn : sid ∈ (run tr).players.map Prod.fst) :
    (hitEv (run tr) sid ⟨tgt, dmg, dir⟩
        = ((run tr).players.map Prod.fst).map
            (fun r => (r, SMsg.playerHit tgt dmg sid dir)))
    ∧ ((sid, SMsg.playerHit tgt dmg sid dir)
        ∈ hitEv (run tr) sid ⟨tgt, dmg, dir⟩)
    ∧ (∀ r, r ∈ (run tr).players.map Prod.fst →
        (hitEv (run tr) sid ⟨tgt, dmg, dir⟩).countP
          (fun m => m = (r, SMsg.playerHit tgt dmg sid dir)) = 1) := by
  refine ⟨rfl, ?_, ?_⟩
  · exact List.mem_map_of_mem _ hconn
  · intro r hr
    obtain ⟨hnd, -, -⟩ := inv_run tr
    exact countP_map_pair _ _ r hnd hr

/-- C8 witness: on a two-session server, a hit from `a` reaches both `a`
(the shooter) and `b`, once each. -/
theorem hit_fanout_witness :
    (hitEv (run [SEvent.con "a", SEvent.con "b"]) "a" ⟨"b", 10, none⟩
        = [("a", SMsg.playerHit "b" 10 "a" none),
           ("b", SMsg.playerHit "b" 10 "a" none)])
    ∧ (("a", SMsg.playerHit "b" 10 "a" none)
        ∈ hitEv (run [SEvent.con "a", SEvent.con "b"]) "a" ⟨"b", 10, none⟩)
    ∧ ((hitEv (run [SEvent.con "a", SEvent.con "b"]) "a" ⟨"b", 10, none⟩).countP
        (fun m => m = ("b", SMsg.playerHit "b" 10 "a" none)) = 1) := by
  refine ⟨by decide, ?_, ?_⟩
  · exact (hit_fanout [SEvent.con "a", SEvent.con "b"] "a" "b" 10 none
      (by decide)).2.1
  · exact (hit_fanout [SEvent.con "a", SEvent.con "b"] "a" "b" 10 none
      (by decide)).2.2 "b" (by decide)

/-! ## Client `Player` (src/unnamed/part_006)

The modelled slice of a `Player` instance.  `mesh.rotation` (Euler) and
`mesh.quaternion` are the same three.js datum kept in sync, so orientation
is one `rotation` field and `quaternion.identity()` is `rotation := zero`.
`weapon` and `healthBarSprite` may not be loaded yet, hence `Option Bool`
(`some v` = object present with `visible = v`).  `hitAnimPlaying` stands
for the `Hit` animation action having been `reset().play()`ed.
`ragdollCreated` records the `physicsManager.createRagdoll` side effect for
this player's id.  Visual-only calls (`drawHealthBar`, material flashes)
mutate no replicated state and are not fields.
-/

structure Player where
  id : String
  isLocal : Bool
  health : Rat
  maxHealth : Rat
  isDead : Bool
  isInvincible : Bool
  isStunned : Bool
  stunCount : Rat
  velocity : Vec3
  position : Vec3
  rotation : Vec3
  pivotPos : Vec3
  meshVisible : Bool
  weapon : Option Bool
  healthBar : Option Bool
  mixerPresent : Bool
  mixerTimeScale : Rat
  currentAction : String
  hasHitAnim : Bool
  hasIdleAnim : Bool
  hitAnimPlaying : Bool
  lastHitDirection : Option Vec3
  lastHitTime : Rat
  isRagdolling : Bool
  ragdollTime : Rat
  isFiring : Bool
  remotePitch : Rat
  aimingTransform : Option (Vec3 × Vec3)
  moveForward : Bool
  moveBackward : Bool
  moveLeft : Bool
  moveRight : Bool
  forcedAimYaw : Option Rat
  forcedAimTime : Rat
  ragdollCreated : Bool
  deriving DecidableEq, Repr

/-- Milliseconds of post-respawn invulnerability: the `setTimeout(...,
3000)` in `Player.respawn` (part_006 lines 163-167). -/
def invincibilityMs : Rat := 3000

/-- Milliseconds until the automatic respawn scheduled by `Player.die`
(part_006 lines 121-124). -/
def respawnDelayMs : Rat := 10000

/-- `Player.die` (part_006 lines 88-125).  The local player with a physics
manager gets a ragdoll body; otherwise the mesh is tumbled flat.  The
timer that later calls `respawn` is the `respawnDelayMs` schedule. -/
def Player.die (p : Player) (_impulseDir : Option Vec3) (hasPhysics : Bool) :
    Player :=
  if p.isDead then p
  else
    let p1 := { p with isDead := true }
    let p2 := if p1.isLocal ∧ hasPhysics
      then { p1 with ragdollCreated := true }
      else { p1 with rotation := { p1.rotation with x := -(mathPI / 2) },
                     position := { p1.position with y := 2/10 } }
    let p3 := if p2.mixerPresent then { p2 with mixerTimeScale := 0 } else p2
    let p4 := { p3 with weapon := p3.weapon.map (fun _ => false) }
    { p4 with healthBar := p4.healthBar.map (fun _ => false) }

/-- `Player.takeDamage` (part_006 lines 60-86).  Dead or invincible players
ignore damage entirely; otherwise health drops, knockback may apply, the
hit reaction plays, and at `health ≤ 0` the player dies (with the stored
last hit direction as ragdoll impulse). -/
def Player.takeDamage (p : Player) (amount : Rat) (direction : Option Vec3)
    (explosionForce : Rat) (now : Rat) (hasPhysics : Bool) : Player :=
  if p.isDead || p.isInvincible then p
  else
    let p1 := { p with health := p.health - amount }
    let p2 := if 0 < explosionForce ∧ direction.isSome ∧ p1.isLocal
      then { p1 with velocity :=
              p1.velocity.add ((direction.getD Vec3.zero).scale explosionForce) }
      else p1
    let p3 := { p2 with lastHitDirection := direction, lastHitTime := now }
    let p4 := if p3.hasHitAnim then { p3 with hitAnimPlaying := true } else p3
    if p4.health ≤ 0 then p4.die p4.lastHitDirection hasPhysics else p4

/-- `Player.respawn` (part_006 lines 127-197).  `spawnX`/`spawnZ` stand for
the random `getSpawnPosition()` result; the 3-second invulnerability timer
is the `invincibilityMs` schedule.  `sendRagdollEnd` (an emission with no
player-state effect) fires when the player is local and networked. -/
def Player.respawn (p : Player) (spawnX spawnZ : Rat) (hasPhysics : Bool) :
    Player :=
  let p0 := if hasPhysics then { p with ragdollCreated := false } else p
  let p1 := { p0 with isDead := false, isStunned := false, stunCount := 0,
                      health := p0.maxHealth, velocity := Vec3.zero }
  let p2 := if p1.mixerPresent then { p1 with mixerTimeScale := 1 } else p1
  let p3 := { p2 with meshVisible := true, rotation := Vec3.zero }
  let p4 := { p3 with weapon := p3.weapon.map (fun _ => true),
                      healthBar := p3.healthBar.map (fun _ => true) }
  let p5 := { p4 with isInvincible := true }
  let p6 := if p5.isLocal
    then { p5 with pivotPos := ⟨spawnX, 8/5, spawnZ⟩, velocity := Vec3.zero }
    else { p5 with position := ⟨spawnX, 0, spawnZ⟩ }
  let p7 := if p6.mixerPresent
    then { p6 with mixerTimeScale := 1, hitAnimPlaying := false,
                   currentAction :=
                     if p6.hasIdleAnim then "Idle" else p6.currentAction }
    else p6
  { p7 with isRagdolling := false, ragdollTime := 0 }

/-! ## AI `Enemy` (src/unnamed/part_001, second document) -/

structure Enemy where
  id : String
  meshPresent : Bool
  position : Vec3
  rotY : Rat
  health : Rat
  maxHealth : Rat
  isDead : Bool
  state : String
  currentAction : Option String
  mixerPresent : Bool
  anims : List String
  placeholderPresent : Bool
  deriving DecidableEq, Repr

/-- `Enemy.setAnimationAction` (part_001).  Missing mixer or missing clip:
return unchanged.  Re-triggering the current action replays it (no modelled
field changes); otherwise the current action switches to `name`. -/
def Enemy.setAnimationAction (e : Enemy) (name : String) : Enemy :=
  if ¬ e.mixerPresent ∨ name ∉ e.anims then e
  else if e.currentAction = some name then e
  else { e with currentAction := some name }

/-- `Enemy.setState` (part_001): records the state-machine state and plays
the transition animation when a mixer exists. -/
def Enemy.setState (e : Enemy) (newState : String) : Enemy :=
  if e.state = newState then e
  else
    let e1 := { e with state := newState }
    if e1.mixerPresent then
      if newState = "WALK" then e1.setAnimationAction "Walk"
      else if newState = "CHASE" then e1.setAnimationAction "Walk"
      else if newState = "ATTACK" then e1.setAnimationAction "Attack"
      else if newState = "DEAD" then e1.setAnimationAction "Death"
      else e1
    else e1

/-- `Enemy.die` (part_001): mark dead, run the DEAD transition, drop the
collision placeholder (the 10-second mesh removal is a timer). -/
def Enemy.die (e : Enemy) : Enemy :=
  let e1 := { e with isDead := true }
  let e2 := e1.setState "DEAD"
  { e2 with placeholderPresent := false }

/-- `Enemy.takeDamage` (part_001): dead enemies ignore damage; otherwise
health drops (`flashRed` touches render materials only) and at
`health ≤ 0` the enemy dies. -/
def Enemy.takeDamage (e : Enemy) (amount : Rat) : Enemy :=
  if e.isDead then e
  else
    let e1 := { e with health := e.health - amount }
    if e1.health ≤ 0 then e1.die else e1

/-! ## `Game.handlePlayerHit` (src/unnamed/part_002 lines 433-453) -/

/-- The `playerHit` payload a client receives. -/
structure HitMsg where
  targetId : String
  damage : Rat
  shooterId : String
  direction : Option Vec3
  deriving DecidableEq, Repr

/-- The slice of a `Game` that hit handling touches.  `selfId` is
`networkManager.id` (null until connected). -/
structure GameView where
  selfId : Option String
  hasNetwork : Bool
  player : Option Player
  remotePlayers : List (String × Player)
  enemies : List Enemy
  deriving DecidableEq, Repr

/-- In-place mutation of the first entry with the given key. -/
def updateFirst (l : List (String × Player)) (k : String)
    (f : Player → Player) : List (String × Player) :=
  match l with
  | [] => []
  | (k0, p) :: t =>
      if k0 = k then (k0, f p) :: t else (k0, p) :: updateFirst t k f

/-- In-place mutation of the first enemy found by `enemies.find` on id. -/
def updateFirstEnemy (l : List Enemy) (k : String)
    (f : Enemy → Enemy) : List Enemy :=
  match l with
  | [] => []
  | e :: t => if e.id = k then f e :: t else e :: updateFirstEnemy t k f

def Game.handlePlayerHit (g : GameView) (d : HitMsg) (now : Rat)
    (hasPhysics : Bool) : GameView :=
  if g.player.isSome ∧ g.hasNetwork = true ∧ g.selfId = some d.targetId then
    { g with player := (g.player.map
        (fun p => p.takeDamage d.damage d.direction 0 now hasPhysics)) }
  else if ¬ d.targetId = ""
      ∧ (g.remotePlayers.lookup d.targetId).isSome
      ∧ ¬ some d.shooterId = (if g.hasNetwork then g.selfId else none) then
    { g with remotePlayers := (updateFirst g.remotePlayers d.targetId
        (fun p => p.takeDamage d.damage d.direction 0 now hasPhysics)) }
  else if ¬ d.targetId = "" ∧ d.targetId.startsWith "enemy_" then
    { g with enemies := (updateFirstEnemy g.enemies d.targetId
        (fun e => e.takeDamage d.damage)) }
  else g

theorem die_of_dead (p : Player) (dir : Option Vec3) (hp : Bool)
    (h : p.isDead = true) : p.die dir hp = p := by
  simp [Player.die, h]

theorem die_health (p : Player) (dir : Option Vec3) (hp : Bool) :
    (p.die dir hp).health = p.health := by
  by_cases hd : p.isDead = true
  · simp [die_of_dead p dir hp hd]
  · cases hp <;> by_cases hl : p.isLocal = true <;>
      by_cases hm : p.mixerPresent = true <;>
      simp [Player.die, hd, hl, hm]

theorem die_isDead (p : Player) (dir : Option Vec3) (hp : Bool)
    (h : p.isDead = false) : (p.die dir hp).isDead = true := by
  cases hp <;> by_cases hl : p.isLocal = true <;>
    by_cases hm : p.mixerPresent = true <;>
    simp [Player.die, h, hl, hm]

theorem takeDamage_of_dead (p : Player) (amount : Rat) (dir : Option Vec3)
    (ef now : Rat) (hp : Bool) (h : p.isDead = true) :
    p.takeDamage amount dir ef now hp = p := by
  simp only [Player.takeDamage, h, Bool.true_or, if_pos]

theorem takeDamage_of_invincible (p : Player) (amount : Rat)
    (dir : Option Vec3) (ef now : Rat) (hp : Bool)
    (h : p.isInvincible = true) :
    p.takeDamage amount dir ef now hp = p := by
  simp only [Player.takeDamage, h, Bool.or_true, if_pos]

theorem takeDamage_health (p : Player) (amount : Rat) (dir : Option Vec3)
    (now : Rat) (hp : Bool) (hd : p.isDead = false)
    (hi : p.isInvincible = false) :
    (p.takeDamage amount dir 0 now hp).health = p.health - amount := by
  by_cases ha : p.hasHitAnim = true <;>
    by_cases hf : p.health - amount ≤ 0 <;>
    simp [Player.takeDamage, hd, hi, ha, hf, die_health]

theorem takeDamage_kills (p : Player) (amount : Rat) (dir : Option Vec3)
    (now : Rat) (hp : Bool) (hd : p.isDead = false)
    (hi : p.isInvincible = false) (hk : p.health ≤ amount) :
    (p.takeDamage amount dir 0 now hp).isDead = true := by
  have hf : p.health - amount ≤ 0 := by linarith
  by_cases ha : p.hasHitAnim = true <;>
    simp [Player.takeDamage, hd, hi, ha, hf, die_isDead]

theorem respawn_isInvincible (p : Player) (sx sz : Rat) (hp : Bool) :
    (p.respawn sx sz hp).isInvincible = true := by
  cases hp <;> by_cases hm : p.mixerPresent = true <;>
    by_cases hl : p.isLocal = true <;>
    simp [Player.respawn, hm, hl]

/-- A player state reachable three seconds after a respawn: alive, at full
health, but still inside the invulnerability window. -/
def invinciblePlayer : Player :=
  { id := "p1", isLocal := true, health := 100, maxHealth := 100,
    isDead := false, isInvincible := true, isStunned := false, stunCount := 0,
    velocity := Vec3.zero, position := Vec3.zero, rotation := Vec3.zero,
    pivotPos := Vec3.zero, meshVisible := true, weapon := some true,
    healthBar := some true, mixerPresent := true, mixerTimeScale := 1,
    currentAction := "Idle", hasHitAnim := true, hasIdleAnim := true,
    hitAnimPlaying := false, lastHitDirection := none, lastHitTime := 0,
    isRagdolling := false, ragdollTime := 0, isFiring := false,
    remotePitch := 0, aimingTransform := none, moveForward := false,
    moveBackward := false, moveLeft := false, moveRight := false,
    forcedAimYaw := none, forcedAimTime := 0, ragdollCreated := false }

/-- C3 counterexample: a live (not Dead) but invincible player ignores a
`HitEvent`, so damage is not applied even though the target is not Dead —
the claim's precondition is too weak. -/
theorem hit_not_applied_when_invincible :
    invinciblePlayer.isDead = false
      ∧ (invinciblePlayer.takeDamage 10 none 0 0 false).health
          ≠ invinciblePlayer.health - 10 := by
  constructor
  · rfl
  · rw [takeDamage_of_invincible invinciblePlayer 10 none 0 0 false rfl]
    norm_num [invinciblePlayer]

/-- C3 (amended).  For every received `HitEvent` the receiving session
applies the damage to the named target exactly once, provided the target is
not already Dead and not inside the post-respawn invincibility window: the
health drops by the damage; damage at or above current health kills, and
the Dead transition happens exactly once (further applications are no-ops);
damage to an already-Dead target leaves its state unchanged; and the
`playerHit` dispatch of the receiving session mutates exactly the named
target, once. -/
theorem hit_application (p : Player) (g : GameView) (d : HitMsg)
    (amount : Rat) (dir : Option Vec3) (now : Rat) (hp : Bool) :
    (p.isDead = false → p.isInvincible = false →
        ((p.takeDamage amount dir 0 now hp).health = p.health - amount
          ∧ (p.health ≤ amount →
              (p.takeDamage amount dir 0 now hp).isDead = true
                ∧ ∀ a2 d2 n2,
                  ((p.takeDamage amount dir 0 now hp).takeDamage a2 d2 0 n2 hp)
                    = p.takeDamage amount dir 0 now hp)))
    ∧ (p.isDead = true → p.takeDamage amount dir 0 now hp = p)
    ∧ (g.hasNetwork = true → g.selfId = some d.targetId → g.player = some p →
        Game.handlePlayerHit g d now hp
          = { g with player := (some
                (p.takeDamage d.damage d.direction 0 now hp)) }) := by
  refine ⟨?_, ?_, ?_⟩
  · intro hd hi
    refine ⟨takeDamage_health p amount dir now hp hd hi, ?_⟩
    intro hk
    have hkill := takeDamage_kills p amount dir now hp hd hi hk
    exact ⟨hkill, fun a2 d2 n2 => takeDamage_of_dead _ a2 d2 0 n2 hp hkill⟩
  · intro hd
    exact takeDamage_of_dead p amount dir 0 now hp hd
  · intro hnet hself hpl
    unfold Game.handlePlayerHit
    rw [if_pos ⟨by rw [hpl]; rfl, hnet, hself⟩, hpl]
    rfl

/-- An alive, vulnerable 100-health player. -/
def alivePlayer : Player := { invinciblePlayer with isInvincible := false }

/-- C3 witness: a vulnerable 100-health player hit for 10 drops to 90, a
100-damage blow kills, a dead player ignores damage, and the self-target
dispatch applies the damage to the local player once. -/
theorem hit_application_witness :
    ((alivePlayer.takeDamage 10 none 0 0 false).health = 90)
    ∧ ((alivePlayer.takeDamage 100 none 0 0 false).isDead = true)
    ∧ ({ alivePlayer with isDead := true }.takeDamage 10 none 0 0 false
        = { alivePlayer with isDead := true })
    ∧ (Game.handlePlayerHit
          ⟨some "me", true, some alivePlayer, [], []⟩
          ⟨"me", 10, "shooter", none⟩ 0 false
        = ⟨some "me", true,
            some (alivePlayer.takeDamage 10 none 0 0 false), [], []⟩) := by
  refine ⟨?_, ?_, ?_, ?_⟩
  · rw [((hit_application alivePlayer
      ⟨none, false, none, [], []⟩ ⟨"x", 0, "y", none⟩ 10 none 0 false).1
      rfl rfl).1]
    norm_num [alivePlayer, invinciblePlayer]
  · exact (((hit_application alivePlayer
      ⟨none, false, none, [], []⟩ ⟨"x", 0, "y", none⟩ 100 none 0 false).1
      rfl rfl).2 (by norm_num [alivePlayer, invinciblePlayer])).1
  · exact (hit_application { alivePlayer with isDead := true }
      ⟨none, false, none, [], []⟩ ⟨"x", 0, "y", none⟩ 10 none 0 false).2.1 rfl
  · exact (hit_application alivePlayer
      ⟨some "me", true, some alivePlayer, [], []⟩
      ⟨"me", 10, "shooter", none⟩ 10 none 0 false).2.2 rfl rfl rfl

/-- C10.  Implicit post-respawn invincibility: `respawn` turns on
`isInvincible` and schedules it off after a fixed `invincibilityMs = 3000`
milliseconds; while invincible (and not Dead) every `takeDamage` call is a
complete no-op, so `HitEvents` in the window are not applied even though
the target is not Dead. -/
theorem post_respawn_invincibility (p : Player) (sx sz : Rat)
    (hp hp2 : Bool) (amount : Rat) (dir : Option Vec3) (ef now : Rat) :
    ((p.respawn sx sz hp).isInvincible = true)
    ∧ invincibilityMs = 3000
    ∧ (p.isInvincible = true → p.isDead = false →
        p.takeDamage amount dir ef now hp2 = p) := by
  refine ⟨respawn_isInvincible p sx sz hp, rfl, ?_⟩
  intro hi _
  exact takeDamage_of_invincible p amount dir ef now hp2 hi

/-- C10 witness: the concrete invincible player ignores a 25-damage hit
with knockback completely. -/
theorem post_respawn_invincibility_witness :
    ((invinciblePlayer.respawn 25 25 true).isInvincible = true)
    ∧ (invinciblePlayer.takeDamage 25 (some ⟨1, 0, 0⟩) 5 123 true
        = invinciblePlayer) := by
  constructor
  · exact (post_respawn_invincibility invinciblePlayer 25 25 true true
      25 none 0 0).1
  · exact (post_respawn_invincibility invinciblePlayer 25 25 true true
      25 (some ⟨1, 0, 0⟩) 5 123).2.2 rfl rfl

/-! ## Remote state application (`Player.updateRemoteState`,
src/unnamed/part_006 lines 1614-1678) -/

/-- The `playerUpdated` payload as consumed by `updateRemoteState`. -/
structure RemoteStateMsg where
  position : Vec3
  rotation : Vec3
  action : String
  isFiring : Bool
  pitch : Option Rat
  gunPos : Option Vec3
  gunRot : Option Vec3
  health : Option Rat
  maxHealth : Option Rat
  deriving DecidableEq, Repr

/-- The body of `updateRemoteState` after the dead-skip (part_006 lines
1632-1677): position, rotation (with the forced-aim override window),
firing flag, pitch (`state.pitch || 0`), movement inference, weapon
transform and health sync. -/
def Player.applyRemoteUpdate (p : Player) (st : RemoteStateMsg)
    (now : Rat) : Player :=
  let p1 := { p with position := st.position }
  let p2 := match p1.forcedAimYaw with
    | some yaw =>
        if now - p1.forcedAimTime < 500 ∧ st.isFiring
        then { p1 with rotation := ⟨st.rotation.x, yaw, st.rotation.z⟩ }
        else { p1 with rotation := st.rotation }
    | none => { p1 with rotation := st.rotation }
  let p3 := { p2 with isFiring := st.isFiring,
                      remotePitch := st.pitch.getD 0 }
  let p4 := if st.action = "Run" then { p3 with moveForward := true }
    else { p3 with moveForward := false }
  let p5 := { p4 with moveBackward := false, moveLeft := false,
                      moveRight := false }
  let p6 := match st.gunPos, st.gunRot with
    | some gp, some gr => { p5 with aimingTransform := some (gp, gr) }
    | _, _ => p5
  match st.health with
  | some h => { p6 with health := h,
                        maxHealth := st.maxHealth.getD p6.maxHealth }
  | none => p6

/-- `Player.updateRemoteState` (part_006 lines 1614-1622 and onward): a dead
remote player that reports `health > 0` is respawned client-side; a player
still dead after that skips the positional update entirely. -/
def Player.updateRemoteState (p : Player) (st : RemoteStateMsg)
    (spawnX spawnZ now : Rat) (hasPhysics : Bool) : Player :=
  let p0 := if p.isDead
      && (match st.health with | some h => decide (0 < h) | none => false)
    then p.respawn spawnX spawnZ hasPhysics else p
  if p0.isDead then p0 else p0.applyRemoteUpdate st now

theorem respawn_isDead (p : Player) (sx sz : Rat) (hp : Bool) :
    (p.respawn sx sz hp).isDead = false := by
  cases hp <;> by_cases hm : p.mixerPresent = true <;>
    by_cases hl : p.isLocal = true <;>
    simp [Player.respawn, hm, hl]

theorem respawn_forcedAimYaw (p : Player) (sx sz : Rat) (hp : Bool) :
    (p.respawn sx sz hp).forcedAimYaw = p.forcedAimYaw := by
  cases hp <;> by_cases hm : p.mixerPresent = true <;>
    by_cases hl : p.isLocal = true <;>
    simp [Player.respawn, hm, hl]

theorem applyRemote_position (p : Player) (st : RemoteStateMsg) (now : Rat) :
    (p.applyRemoteUpdate st now).position = st.position := by
  cases hfa : p.forcedAimYaw <;>
    by_cases hif : now - p.forcedAimTime < 500 ∧ st.isFiring = true <;>
    by_cases hact : st.action = "Run" <;>
    cases hgp : st.gunPos <;> cases hgr : st.gunRot <;>
    cases hh : st.health <;>
    simp [Player.applyRemoteUpdate, hfa, hif, hact, hgp, hgr, hh]

theorem applyRemote_isDead (p : Player) (st : RemoteStateMsg) (now : Rat) :
    (p.applyRemoteUpdate st now).isDead = p.isDead := by
  cases hfa : p.forcedAimYaw <;>
    by_cases hif : now - p.forcedAimTime < 500 ∧ st.isFiring = true <;>
    by_cases hact : st.action = "Run" <;>
    cases hgp : st.gunPos <;> cases hgr : st.gunRot <;>
    cases hh : st.health <;>
    simp [Player.applyRemoteUpdate, hfa, hif, hact, hgp, hgr, hh]

theorem applyRemote_health (p : Player) (st : RemoteStateMsg) (now : Rat)
    (h : Rat) (hh : st.health = some h) :
    (p.applyRemoteUpdate st now).health = h := by
  cases hfa : p.forcedAimYaw <;>
    by_cases hif : now - p.forcedAimTime < 500 ∧ st.isFiring = true <;>
    by_cases hact : st.action = "Run" <;>
    cases hgp : st.gunPos <;> cases hgr : st.gunRot <;>
    simp [Player.applyRemoteUpdate, hfa, hif, hact, hgp, hgr, hh]

theorem applyRemote_rotation (p : Player) (st : RemoteStateMsg) (now : Rat)
    (hfa : p.forcedAimYaw = none) :
    (p.applyRemoteUpdate st now).rotation = st.rotation := by
  by_cases hact : st.action = "Run" <;>
    cases hgp : st.gunPos <;> cases hgr : st.gunRot <;>
    cases hh : st.health <;>
    simp [Player.applyRemoteUpdate, hfa, hact, hgp, hgr, hh]

/-- C6.  Dead-entity update freeze: while a remote player is Dead on the
receiver, an inbound `PlayerState` without positive health is ignored
entirely (no position/rotation applied); a `PlayerState` with `health > 0`
respawns the entity client-side (it is no longer Dead, and the update,
position and health included, is applied again); and a live entity gets
ordinary position/rotation application.  The local 10-second ragdoll
respawn timer (`respawnDelayMs`) ends the freeze through the same
`respawn`, whose `isDead = false` result is the `respawn_isDead` fact used
here. -/
theorem dead_update_freeze (p : Player) (st : RemoteStateMsg)
    (sx sz now : Rat) (hp : Bool) :
    (p.isDead = true →
        (match st.health with | some h => h ≤ 0 | none => True) →
        p.updateRemoteState st sx sz now hp = p)
    ∧ (p.isDead = true → ∀ h, st.health = some h → 0 < h →
        ((p.updateRemoteState st sx sz now hp).isDead = false
          ∧ (p.updateRemoteState st sx sz now hp).position = st.position
          ∧ (p.updateRemoteState st sx sz now hp).health = h))
    ∧ (p.isDead = false →
        ((p.updateRemoteState st sx sz now hp).position = st.position
          ∧ (p.forcedAimYaw = none →
              (p.updateRemoteState st sx sz now hp).rotation
                = st.rotation))) := by
  refine ⟨?_, ?_, ?_⟩
  · intro hd hcond
    cases hh : st.health with
    | none => simp [Player.updateRemoteState, hd, hh]
    | some h =>
        rw [hh] at hcond
        have hlt : ¬ (0 < h) := not_lt.mpr hcond
        simp [Player.updateRemoteState, hd, hh, hlt]
  · intro hd h hh hpos
    have hstep : p.updateRemoteState st sx sz now hp
        = (p.respawn sx sz hp).applyRemoteUpdate st now := by
      simp [Player.updateRemoteState, hd, hh, hpos, respawn_isDead]
    rw [hstep]
    exact ⟨by rw [applyRemote_isDead, respawn_isDead],
      applyRemote_position _ st now, applyRemote_health _ st now h hh⟩
  · intro hd
    have hstep : p.updateRemoteState st sx sz now hp
        = p.applyRemoteUpdate st now := by
      cases hh : st.health with
      | none => simp [Player.updateRemoteState, hd, hh]
      | some h => simp [Player.updateRemoteState, hd, hh]
    rw [hstep]
    refine ⟨applyRemote_position p st now, ?_⟩
    intro hfa
    exact applyRemote_rotation p st now hfa

/-- C6 witness: a dead remote player ignores a `health = 0` update but is
respawned and repositioned by a `health = 100` one; a live player follows
position and rotation. -/
theorem dead_update_freeze_witness :
    ({ alivePlayer with isDead := true }.updateRemoteState
        ⟨⟨1, 0, 2⟩, ⟨0, 1, 0⟩, "Run", false, none, none, none, some 0, some 100⟩
        25 25 0 false
      = { alivePlayer with isDead := true })
    ∧ (({ alivePlayer with isDead := true }.updateRemoteState
        ⟨⟨1, 0, 2⟩, ⟨0, 1, 0⟩, "Run", false, none, none, none, some 100,
          some 100⟩ 25 25 0 false).isDead = false)
    ∧ ((alivePlayer.updateRemoteState
        ⟨⟨1, 0, 2⟩, ⟨0, 1, 0⟩, "Idle", false, none, none, none, none, none⟩
        25 25 0 false).position = ⟨1, 0, 2⟩) := by
  refine ⟨?_, ?_, ?_⟩
  · exact (dead_update_freeze { alivePlayer with isDead := true }
      ⟨⟨1, 0, 2⟩, ⟨0, 1, 0⟩, "Run", false, none, none, none, some 0, some 100⟩
      25 25 0 false).1 rfl (by norm_num)
  · exact ((dead_update_freeze { alivePlayer with isDead := true }
      ⟨⟨1, 0, 2⟩, ⟨0, 1, 0⟩, "Run", false, none, none, none, some 100,
        some 100⟩ 25 25 0 false).2.1 rfl 100 rfl (by norm_num)).1
  · exact ((dead_update_freeze alivePlayer
      ⟨⟨1, 0, 2⟩, ⟨0, 1, 0⟩, "Idle", false, none, none, none, none, none⟩
      25 25 0 false).2.2 rfl).1

/-! ## Ragdoll end handling (`socket.on('ragdollEnd')` in
src/src/NetworkManager.js, second document, lines 185-199, and
`PhysicsManager.removeRagdoll` in src/unnamed/part_000 lines 164-177) -/

/-- The slice of client state the `ragdollEnd` handler touches: own socket
id, presence of `game.physicsManager`, the ids with an entry in
`physicsManager.ragdolls`, and the remote player registry. -/
structure ClientView where
  selfId : String
  hasPhysics : Bool
  ragdolls : List String
  remotePlayers : List (String × Player)
  deriving DecidableEq, Repr

/-- `PhysicsManager.removeRagdoll`: absent id is a no-op, otherwise the
entry is deleted (the rigid-body removal acts on the physics world). -/
def removeRagdollIds (l : List String) (pid : String) : List String :=
  if pid ∈ l then l.filter (fun k => ¬ k = pid) else l

/-- The per-player effect of the `ragdollEnd` handler: mesh visible again,
`quaternion.identity()` (identity orientation), weapon and health bar
visible when those objects exist. -/
def ragdollEndReset (p : Player) : Player :=
  let p1 := { p with meshVisible := true, rotation := Vec3.zero }
  { p1 with weapon := p1.weapon.map (fun _ => true),
            healthBar := p1.healthBar.map (fun _ => true) }

/-- The `socket.on('ragdollEnd')` handler: for a remote sender with a
physics manager present, remove that ragdoll and restore the remote player
(when registered) to default idle visibility and pose. -/
def handleRagdollEnd (v : ClientView) (senderId : String) : ClientView :=
  if ¬ senderId = v.selfId ∧ v.hasPhysics then
    let v1 := { v with ragdolls := removeRagdollIds v.ragdolls senderId }
    if (v1.remotePlayers.lookup senderId).isSome then
      { v1 with remotePlayers :=
          (updateFirst v1.remotePlayers senderId ragdollEndReset) }
    else v1
  else v

theorem reset_idem (p : Player) :
    ragdollEndReset (ragdollEndReset p) = ragdollEndReset p := by
  cases hw : p.weapon <;> cases hb : p.healthBar <;>
    simp [ragdollEndReset, hw, hb]

theorem lookup_updateFirst (l : List (String × Player)) (k : String)
    (f : Player → Player) :
    (updateFirst l k f).lookup k = (l.lookup k).map f := by
  induction l with
  | nil => simp [updateFirst, List.lookup]
  | cons q t ih =>
      obtain ⟨k0, p0⟩ := q
      by_cases he : k0 = k
      · subst he
        simp [updateFirst, List.lookup]
      · have hb : (k == k0) = false :=
          beq_eq_false_iff_ne.mpr (fun hc => he hc.symm)
        simp only [updateFirst, if_neg he, List.lookup, hb]
        exact ih

theorem updateFirst_comp (l : List (String × Player)) (k : String)
    (f g : Player → Player) :
    updateFirst (updateFirst l k f) k g = updateFirst l k (fun p => g (f p)) := by
  induction l with
  | nil => simp [updateFirst]
  | cons q t ih =>
      obtain ⟨k0, p0⟩ := q
      by_cases he : k0 = k
      · simp [updateFirst, he]
      · simp only [updateFirst, if_neg he]
        rw [ih]

theorem updateFirst_eq_self (l : List (String × Player)) (k : String)
    (f : Player → Player) (p : Player) (hl : l.lookup k = some p)
    (hf : f p = p) : updateFirst l k f = l := by
  induction l with
  | nil => simp [List.lookup] at hl
  | cons q t ih =>
      obtain ⟨k0, p0⟩ := q
      by_cases he : k0 = k
      · subst he
        simp only [List.lookup, beq_self_eq_true] at hl
        have hp : p0 = p := by simpa using hl
        simp [updateFirst, hp, hf]
      · have hb : (k == k0) = false :=
          beq_eq_false_iff_ne.mpr (fun hc => he hc.symm)
        simp only [List.lookup, hb] at hl
        simp only [updateFirst, if_neg he]
        rw [ih hl]

theorem removeRagdollIds_idem (l : List String) (pid : String) :
    removeRagdollIds (removeRagdollIds l pid) pid = removeRagdollIds l pid := by
  by_cases hm : pid ∈ l
  · have hnot : pid ∉ l.filter (fun k => ¬ k = pid) := by
      intro hc
      have h2 := (List.mem_filter.1 hc).2
      simp at h2
    simp only [removeRagdollIds, if_pos hm]
    rw [if_neg hnot]
  · simp only [removeRagdollIds, if_neg hm]

/-- C5.  Idempotent `RagdollEnd`: processing the message twice gives the
same client state as processing it once (for every client state, sender
and registry — in particular when no ragdoll is active); the first
processing restores the remote entity to default idle visibility and pose
(mesh visible, identity orientation, weapon and health bar visible); and
with no active ragdoll and an entity already in the default pose the
processing is a complete no-op. -/
theorem ragdoll_end_idempotent (v : ClientView) (sid : String) (p : Player) :
    (handleRagdollEnd (handleRagdollEnd v sid) sid = handleRagdollEnd v sid)
    ∧ (¬ sid = v.selfId → v.hasPhysics = true →
        v.remotePlayers.lookup sid = some p →
          ((handleRagdollEnd v sid).remotePlayers.lookup sid
              = some (ragdollEndReset p)
            ∧ (ragdollEndReset p).meshVisible = true
            ∧ (ragdollEndReset p).rotation = Vec3.zero
            ∧ (ragdollEndReset p).weapon = p.weapon.map (fun _ => true)
            ∧ (ragdollEndReset p).healthBar
                = p.healthBar.map (fun _ => true)))
    ∧ (sid ∉ v.ragdolls → v.remotePlayers.lookup sid = some p →
        ragdollEndReset p = p → handleRagdollEnd v sid = v) := by
  have hfun : (fun q => ragdollEndReset (ragdollEndReset q)) = ragdollEndReset :=
    funext reset_idem
  refine ⟨?_, ?_, ?_⟩
  · by_cases hg : ¬ sid = v.selfId ∧ v.hasPhysics = true
    · by_cases hlk : (v.remotePlayers.lookup sid).isSome = true
      · have hres : handleRagdollEnd v sid
            = { v with ragdolls := removeRagdollIds v.ragdolls sid,
                       remotePlayers := (updateFirst v.remotePlayers sid
                         ragdollEndReset) } := by
          simp only [handleRagdollEnd]
          rw [if_pos hg, if_pos hlk]
        have hlk2 : (((updateFirst v.remotePlayers sid
            ragdollEndReset)).lookup sid).isSome = true := by
          rw [lookup_updateFirst]
          obtain ⟨q, hq⟩ := Option.isSome_iff_exists.1 hlk
          rw [hq]
          rfl
        rw [hres]
        simp only [handleRagdollEnd]
        rw [if_pos hg, if_pos hlk2]
        simp only [removeRagdollIds_idem, updateFirst_comp, hfun]
      · have hres : handleRagdollEnd v sid
            = { v with ragdolls := removeRagdollIds v.ragdolls sid } := by
          simp only [handleRagdollEnd]
          rw [if_pos hg, if_neg hlk]
        rw [hres]
        simp only [handleRagdollEnd]
        rw [if_pos hg, if_neg hlk]
        simp only [removeRagdollIds_idem]
    · have hres : handleRagdollEnd v sid = v := by
        simp only [handleRagdollEnd]
        rw [if_neg hg]
      rw [hres]
      exact hres
  · intro hself hphys hlk
    have hg : ¬ sid = v.selfId ∧ v.hasPhysics = true := ⟨hself, hphys⟩
    have hlks : (v.remotePlayers.lookup sid).isSome = true := by
      rw [hlk]; rfl
    have hres : handleRagdollEnd v sid
        = { v with ragdolls := removeRagdollIds v.ragdolls sid,
                   remotePlayers := (updateFirst v.remotePlayers sid
                     ragdollEndReset) } := by
      simp only [handleRagdollEnd]
      rw [if_pos hg, if_pos hlks]
    refine ⟨?_, ?_, ?_, ?_, ?_⟩
    · rw [hres]
      simp only
      rw [lookup_updateFirst, hlk]
      rfl
    · cases hw : p.weapon <;> cases hb : p.healthBar <;>
        simp [ragdollEndReset, hw, hb]
    · cases hw : p.weapon <;> cases hb : p.healthBar <;>
        simp [ragdollEndReset, hw, hb]
    · cases hw : p.weapon <;> cases hb : p.healthBar <;>
        simp [ragdollEndReset, hw, hb]
    · cases hw : p.weapon <;> cases hb : p.healthBar <;>
        simp [ragdollEndReset, hw, hb]
  · intro hrag hlk hreset
    by_cases hg : ¬ sid = v.selfId ∧ v.hasPhysics = true
    · have hlks : (v.remotePlayers.lookup sid).isSome = true := by
        rw [hlk]; rfl
      simp only [handleRagdollEnd]
      rw [if_pos hg]
      have hrm : removeRagdollIds v.ragdolls sid = v.ragdolls := by
        simp only [removeRagdollIds, if_neg hrag]
      rw [hrm]
      rw [if_pos hlks]
      rw [updateFirst_eq_self v.remotePlayers sid ragdollEndReset p hlk hreset]
    · simp only [handleRagdollEnd]
      rw [if_neg hg]

/-- A remote player mid-ragdoll: hidden mesh, tumbled orientation, hidden
weapon and health bar. -/
def ragdolledPlayer : Player :=
  { alivePlayer with meshVisible := false, rotation := ⟨1, 2, 3⟩,
                     weapon := some false, healthBar := some false }

/-- C5 witness: a `ragdollEnd` from remote player `r` on a client with an
active ragdoll for `r` removes it and restores the default pose; a repeat
is a no-op, as is processing with no active ragdoll and a default pose. -/
theorem ragdoll_end_idempotent_witness :
    (handleRagdollEnd (handleRagdollEnd
        ⟨"me", true, ["r"], [("r", ragdolledPlayer)]⟩ "r") "r"
      = handleRagdollEnd ⟨"me", true, ["r"], [("r", ragdolledPlayer)]⟩ "r")
    ∧ ((handleRagdollEnd
        ⟨"me", true, ["r"], [("r", ragdolledPlayer)]⟩ "r").remotePlayers.lookup
          "r" = some (ragdollEndReset ragdolledPlayer))
    ∧ (handleRagdollEnd ⟨"me", true, [], [("r", ragdollEndReset alivePlayer)]⟩
        "r" = ⟨"me", true, [], [("r", ragdollEndReset alivePlayer)]⟩) := by
  refine ⟨?_, ?_, ?_⟩
  · exact (ragdoll_end_idempotent
      ⟨"me", true, ["r"], [("r", ragdolledPlayer)]⟩ "r" alivePlayer).1
  · exact ((ragdoll_end_idempotent
      ⟨"me", true, ["r"], [("r", ragdolledPlayer)]⟩ "r"
      ragdolledPlayer).2.1 (by decide) rfl rfl).1
  · exact (ragdoll_end_idempotent
      ⟨"me", true, [], [("r", ragdollEndReset alivePlayer)]⟩ "r"
      (ragdollEndReset alivePlayer)).2.2 (by decide) rfl
      (reset_idem alivePlayer)

/-! ## Enemy state application (`Game.handleEnemyStates`,
src/unnamed/part_002 lines 455-473) -/

/-- The entries of the `enemyState` array the Host publishes. -/
structure EnemyNetState where
  id : String
  pos : Vec3
  rot : Rat
  action : Option String
  deriving DecidableEq, Repr

/-- The per-entry body of `handleEnemyStates`: write position and yaw, and
switch the animation action when one is sent and differs. -/
def applyNetToEnemy (s : EnemyNetState) (e : Enemy) : Enemy :=
  let e1 := { e with position := s.pos, rotY := s.rot }
  match s.action with
  | some a => if ¬ e1.currentAction = some a then e1.setAnimationAction a else e1
  | none => e1

/-- The guards around the write: the found enemy must have a mesh and must
not be locally dead. -/
def enemyStep (e : Enemy) (s : EnemyNetState) : Enemy :=
  if e.meshPresent then (if e.isDead then e else applyNetToEnemy s e) else e

/-- `enemies.find(e => e.id === state.id)` followed by the guarded write:
only the first enemy with the entry id is touched. -/
def applyEnemyState : List Enemy → EnemyNetState → List Enemy
  | [], _ => []
  | e :: rest, s =>
      if e.id = s.id then enemyStep e s :: rest
      else e :: applyEnemyState rest s

/-- `Game.handleEnemyStates`: the Host ignores inbound arrays, a Follower
folds every entry over its enemy list. -/
def handleEnemyStates (hasNetwork isHost : Bool) (enemies : List Enemy)
    (states : List EnemyNetState) : List Enemy :=
  if hasNetwork && isHost then enemies
  else states.foldl applyEnemyState enemies

/-- The value `currentAction` takes after one guarded write: `a` when the
mixer is loaded and the clip exists, unchanged otherwise. -/
def actNew (mix : Bool) (anims : List String) (c : Option String) :
    Option String → Option String
  | none => c
  | some a => if mix = true ∧ a ∈ anims then some a else c

theorem applyNet_eq (s : EnemyNetState) (e : Enemy) :
    applyNetToEnemy s e
      = { e with position := s.pos, rotY := s.rot,
                 currentAction := (actNew e.mixerPresent e.anims
                   e.currentAction s.action) } := by
  cases ha : s.action with
  | none => simp [applyNetToEnemy, actNew, ha]
  | some a =>
      by_cases hc : e.currentAction = some a
      · by_cases hP : e.mixerPresent = true ∧ a ∈ e.anims <;>
          simp [applyNetToEnemy, actNew, ha, hc, hP]
      · by_cases hm : e.mixerPresent = true
        · by_cases hmem : a ∈ e.anims <;>
            simp [applyNetToEnemy, Enemy.setAnimationAction, actNew, ha, hc,
              hm, hmem]
        · simp [applyNetToEnemy, Enemy.setAnimationAction, actNew, ha, hc, hm]

theorem enemyStep_id (e : Enemy) (s : EnemyNetState) :
    (enemyStep e s).id = e.id := by
  by_cases hm : e.meshPresent = true <;> by_cases hd : e.isDead = true <;>
    simp [enemyStep, applyNet_eq, hm, hd]

theorem enemyStep_mesh (e : Enemy) (s : EnemyNetState) :
    (enemyStep e s).meshPresent = e.meshPresent := by
  by_cases hm : e.meshPresent = true <;> by_cases hd : e.isDead = true <;>
    simp [enemyStep, applyNet_eq, hm, hd]

theorem enemyStep_isDead (e : Enemy) (s : EnemyNetState) :
    (enemyStep e s).isDead = e.isDead := by
  by_cases hm : e.meshPresent = true <;> by_cases hd : e.isDead = true <;>
    simp [enemyStep, applyNet_eq, hm, hd]

theorem enemyStep_mixer (e : Enemy) (s : EnemyNetState) :
    (enemyStep e s).mixerPresent = e.mixerPresent := by
  by_cases hm : e.meshPresent = true <;> by_cases hd : e.isDead = true <;>
    simp [enemyStep, applyNet_eq, hm, hd]

theorem enemyStep_anims (e : Enemy) (s : EnemyNetState) :
    (enemyStep e s).anims = e.anims := by
  by_cases hm : e.meshPresent = true <;> by_cases hd : e.isDead = true <;>
    simp [enemyStep, applyNet_eq, hm, hd]

theorem foldl_enemyStep_id (l : List EnemyNetState) (e : Enemy) :
    (l.foldl enemyStep e).id = e.id := by
  induction l generalizing e with
  | nil => rfl
  | cons s t ih => rw [List.foldl_cons, ih, enemyStep_id]

theorem foldl_enemyStep_mesh (l : List EnemyNetState) (e : Enemy) :
    (l.foldl enemyStep e).meshPresent = e.meshPresent := by
  induction l generalizing e with
  | nil => rfl
  | cons s t ih => rw [List.foldl_cons, ih, enemyStep_mesh]

theorem foldl_enemyStep_isDead (l : List EnemyNetState) (e : Enemy) :
    (l.foldl enemyStep e).isDead = e.isDead := by
  induction l generalizing e with
  | nil => rfl
  | cons s t ih => rw [List.foldl_cons, ih, enemyStep_isDead]

theorem foldl_enemyStep_mixer (l : List EnemyNetState) (e : Enemy) :
    (l.foldl enemyStep e).mixerPresent = e.mixerPresent := by
  induction l generalizing e with
  | nil => rfl
  | cons s t ih => rw [List.foldl_cons, ih, enemyStep_mixer]

theorem foldl_enemyStep_anims (l : List EnemyNetState) (e : Enemy) :
    (l.foldl enemyStep e).anims = e.anims := by
  induction l generalizing e with
  | nil => rfl
  | cons s t ih => rw [List.foldl_cons, ih, enemyStep_anims]

theorem applyAll_nil (states : List EnemyNetState) :
    states.foldl applyEnemyState [] = [] := by
  induction states with
  | nil => rfl
  | cons s t ih => rw [List.foldl_cons]; exact ih

theorem applyAll_cons (states : List EnemyNetState) (e : Enemy)
    (rest : List Enemy) :
    states.foldl applyEnemyState (e :: rest)
      = ((states.filter (fun s => e.id = s.id)).foldl enemyStep e)
        :: ((states.filter (fun s => ¬ e.id = s.id)).foldl applyEnemyState
            rest) := by
  induction states generalizing e rest with
  | nil => rfl
  | cons s t ih =>
      by_cases hid : e.id = s.id
      · have hstep : applyEnemyState (e :: rest) s = enemyStep e s :: rest := by
          simp [applyEnemyState, hid]
        have ih' := ih (enemyStep e s) rest
        simp only [enemyStep_id] at ih'
        rw [List.foldl_cons, hstep, ih']
        rw [List.filter_cons, List.filter_cons]
        have h1 : (decide (e.id = s.id)) = true := by simpa using hid
        have h2 : ¬ ((decide (¬ e.id = s.id)) = true) := by simpa using hid
        rw [if_pos h1, if_neg h2, List.foldl_cons]
      · have hstep : applyEnemyState (e :: rest) s
            = e :: applyEnemyState rest s := by
          simp [applyEnemyState, hid]
        rw [List.foldl_cons, hstep, ih e (applyEnemyState rest s)]
        rw [List.filter_cons, List.filter_cons]
        have h1 : ¬ ((decide (e.id = s.id)) = true) := by simpa using hid
        have h2 : (decide (¬ e.id = s.id)) = true := by simpa using hid
        rw [if_neg h1, if_pos h2, List.foldl_cons]

theorem foldl_enemyStep_of_noMesh (l : List EnemyNetState) (e : Enemy)
    (hm : e.meshPresent = false) : l.foldl enemyStep e = e := by
  induction l generalizing e with
  | nil => rfl
  | cons s t ih =>
      have hstep : enemyStep e s = e := by simp [enemyStep, hm]
      rw [List.foldl_cons, hstep]
      exact ih e hm

theorem foldl_enemyStep_of_dead (l : List EnemyNetState) (e : Enemy)
    (hd : e.isDead = true) : l.foldl enemyStep e = e := by
  induction l generalizing e with
  | nil => rfl
  | cons s t ih =>
      have hstep : enemyStep e s = e := by
        by_cases hm : e.meshPresent = true <;> simp [enemyStep, hm, hd]
      rw [List.foldl_cons, hstep]
      exact ih e hd

theorem foldl_enemyStep_char (l : List EnemyNetState) (e : Enemy)
    (hm : e.meshPresent = true) (hd : e.isDead = false) :
    l.foldl enemyStep e
      = { e with
          position := l.foldl (fun _ s => s.pos) e.position,
          rotY := l.foldl (fun _ s => s.rot) e.rotY,
          currentAction := l.foldl
            (fun c s => actNew e.mixerPresent e.anims c s.action)
            e.currentAction } := by
  induction l generalizing e with
  | nil => rfl
  | cons s t ih =>
      have hstep : enemyStep e s = applyNetToEnemy s e := by
        simp [enemyStep, hm, hd]
      rw [List.foldl_cons, hstep, applyNet_eq]
      rw [ih _ (by simpa using hm) (by simpa using hd)]
      simp only [List.foldl_cons]

theorem foldl_seed {α σ : Type _} (f : α → σ → α)
    (hf : ∀ c₁ c₂ s, f c₁ s = f c₂ s ∨ (f c₁ s = c₁ ∧ f c₂ s = c₂)) :
    ∀ (l : List σ) (c₁ c₂ : α),
      l.foldl f c₁ = l.foldl f c₂
        ∨ (l.foldl f c₁ = c₁ ∧ l.foldl f c₂ = c₂) := by
  intro l
  induction l with
  | nil => exact fun c₁ c₂ => Or.inr ⟨rfl, rfl⟩
  | cons s t ih =>
      intro c₁ c₂
      rcases hf c₁ c₂ s with heq | ⟨h1, h2⟩
      · rw [List.foldl_cons, List.foldl_cons, heq]
        exact Or.inl rfl
      · rw [List.foldl_cons, List.foldl_cons, h1, h2]
        exact ih c₁ c₂

theorem foldl_replay {α σ : Type _} (f : α → σ → α)
    (hf : ∀ c₁ c₂ s, f c₁ s = f c₂ s ∨ (f c₁ s = c₁ ∧ f c₂ s = c₂))
    (l : List σ) (c : α) :
    l.foldl f (l.foldl f c) = l.foldl f c := by
  rcases foldl_seed f hf l (l.foldl f c) c with h | ⟨h, _⟩ <;> exact h

theorem posStep_hf : ∀ (c₁ c₂ : Vec3) (s : EnemyNetState),
    (fun (_ : Vec3) s => s.pos) c₁ s = (fun (_ : Vec3) s => s.pos) c₂ s
      ∨ ((fun (_ : Vec3) s => s.pos) c₁ s = c₁
          ∧ (fun (_ : Vec3) s => s.pos) c₂ s = c₂) :=
  fun _ _ _ => Or.inl rfl

theorem rotStep_hf : ∀ (c₁ c₂ : Rat) (s : EnemyNetState),
    (fun (_ : Rat) s => s.rot) c₁ s = (fun (_ : Rat) s => s.rot) c₂ s
      ∨ ((fun (_ : Rat) s => s.rot) c₁ s = c₁
          ∧ (fun (_ : Rat) s => s.rot) c₂ s = c₂) :=
  fun _ _ _ => Or.inl rfl

theorem actStep_hf (mix : Bool) (anims : List String) :
    ∀ (c₁ c₂ : Option String) (s : EnemyNetState),
      (fun c s => actNew mix anims c s.action) c₁ s
          = (fun c s => actNew mix anims c s.action) c₂ s
        ∨ ((fun c s => actNew mix anims c s.action) c₁ s = c₁
            ∧ (fun c s => actNew mix anims c s.action) c₂ s = c₂) := by
  intro c₁ c₂ s
  cases ha : s.action with
  | none => exact Or.inr ⟨by simp [actNew, ha], by simp [actNew, ha]⟩
  | some a =>
      by_cases hP : mix = true ∧ a ∈ anims
      · exact Or.inl (by simp [actNew, ha, hP])
      · exact Or.inr ⟨by simp [actNew, ha, hP], by simp [actNew, ha, hP]⟩

theorem enemy_replay (l : List EnemyNetState) (e : Enemy) :
    l.foldl enemyStep (l.foldl enemyStep e) = l.foldl enemyStep e := by
  by_cases hm : e.meshPresent = true
  · by_cases hd : e.isDead = true
    · rw [foldl_enemyStep_of_dead l e hd, foldl_enemyStep_of_dead l e hd]
    · have hd' : e.isDead = false := by simpa using hd
      have hm2 : (l.foldl enemyStep e).meshPresent = true := by
        rw [foldl_enemyStep_mesh]; exact hm
      have hd2 : (l.foldl enemyStep e).isDead = false := by
        rw [foldl_enemyStep_isDead]; exact hd'
      rw [foldl_enemyStep_char l (l.foldl enemyStep e) hm2 hd2]
      rw [foldl_enemyStep_char l e hm hd']
      simp only [foldl_enemyStep_mixer, foldl_enemyStep_anims]
      rw [foldl_replay _ posStep_hf, foldl_replay _ rotStep_hf,
        foldl_replay _ (actStep_hf e.mixerPresent e.anims)]
  · have hm' : e.meshPresent = false := by simpa using hm
    rw [foldl_enemyStep_of_noMesh l e hm', foldl_enemyStep_of_noMesh l e hm']

theorem applyAll_replay :
    ∀ (enemies : List Enemy) (states : List EnemyNetState),
      states.foldl applyEnemyState (states.foldl applyEnemyState enemies)
        = states.foldl applyEnemyState enemies := by
  intro enemies
  induction enemies with
  | nil =>
      intro states
      rw [applyAll_nil states, applyAll_nil states]
  | cons e rest ih =>
      intro states
      rw [applyAll_cons states e rest]
      rw [applyAll_cons states _ _]
      have hid : ((states.filter (fun s => e.id = s.id)).foldl enemyStep e).id
          = e.id := foldl_enemyStep_id _ e
      simp only [hid]
      rw [enemy_replay, ih]

/-- C4.  Idempotent enemy apply: on a Follower (`isHost = false`), applying
the same `EnemyStates` array twice in a row yields a world state identical
field-for-field to applying it once — the apply path only writes position,
yaw and the animation action, all functions of the received entries. -/
theorem enemy_apply_idempotent (hasNetwork : Bool) (enemies : List Enemy)
    (states : List EnemyNetState) :
    handleEnemyStates hasNetwork false
        (handleEnemyStates hasNetwork false enemies states) states
      = handleEnemyStates hasNetwork false enemies states := by
  simp only [handleEnemyStates, Bool.and_false, Bool.false_eq_true, if_false]
  exact applyAll_replay enemies states

/-! ## Per-frame publication (`Game.animate`, src/unnamed/part_002 lines
542-599)

`animate` runs once per rendered frame via `requestAnimationFrame`.  Its
networking section sends `updateState` whenever a network id exists, with
no timer consulted; only shooting is throttled (150 ms).  `networkId`
models `networkManager && networkManager.id` (absent manager or unset id
both mean no emission); `cameraPitch` stores the `Math.asin` result of the
camera direction.
-/

structure GameSlice where
  lastTime : Rat
  lastShootTime : Rat
  hasPlayer : Bool
  playerIsDead : Bool
  isMouseDown : Bool
  networkId : Option String
  isHost : Bool
  playerPos : Vec3
  playerRot : Vec3
  playerAction : String
  cameraPitch : Rat
  aimingTransform : Option (Vec3 × Vec3)
  playerHealth : Rat
  playerMaxHealth : Rat
  enemies : List Enemy
  deriving DecidableEq, Repr

inductive ClientEmit where
  | updateState (st : RemoteStateMsg)
  | enemyState (sts : List EnemyNetState)
  deriving DecidableEq, Repr

def ClientEmit.isUpdateState : ClientEmit → Bool
  | .updateState _ => true
  | _ => false

/-- The object handed to `networkManager.sendState` (lines 576-586). -/
def statePayload (g : GameSlice) : RemoteStateMsg :=
  { position := g.playerPos, rotation := g.playerRot,
    action := g.playerAction, isFiring := g.isMouseDown,
    pitch := some g.cameraPitch,
    gunPos := g.aimingTransform.map Prod.fst,
    gunRot := g.aimingTransform.map Prod.snd,
    health := some g.playerHealth, maxHealth := some g.playerMaxHealth }

/-- The Host's per-frame enemy state array (lines 590-595). -/
def enemyStatesOf (g : GameSlice) : List EnemyNetState :=
  (g.enemies.filter (fun e => e.meshPresent)).map
    (fun e => ⟨e.id, e.position, e.rotY, e.currentAction⟩)

/-- The network emissions of one `animate` frame at clock `time`: with a
player and a live connection, `updateState` is sent unconditionally (no
rate limiter is consulted — `time` does not occur in this branch), plus an
`enemyState` array when hosting with live enemies. -/
def animateEmits (g : GameSlice) (_time : Rat) : List ClientEmit :=
  if g.hasPlayer then
    match g.networkId with
    | some _ =>
        [ClientEmit.updateState (statePayload g)]
          ++ (if g.isHost then
              (if ¬ enemyStatesOf g = []
                then [ClientEmit.enemyState (enemyStatesOf g)] else [])
            else [])
    | none => []
  else []

/-- The 150 ms shooting throttle (line 556) — the only rate limit in
`animate`. -/
def tickFires (g : GameSlice) (time : Rat) : Bool :=
  g.isMouseDown && !g.playerIsDead && decide (g.lastShootTime + 150 < time)

/-- The frame-state update of one `animate` call. -/
def tickStep (g : GameSlice) (time : Rat) : GameSlice :=
  { g with lastTime := time,
           lastShootTime := if tickFires g time then time
             else g.lastShootTime }

/-- An idle connected client game. -/
def animGame : GameSlice :=
  ⟨0, 0, true, false, false, some "me", false, Vec3.zero, Vec3.zero,
    "Idle", 0, none, 100, 100, []⟩

/-- C9 counterexample: the claim says `PlayerState` publication is
rate-limited below the frame rate ("not every rendered frame"), but two
consecutive frames one millisecond apart each publish exactly one
`updateState` — publication happens on every rendered frame. -/
theorem state_published_every_frame_cex :
    ((animateEmits animGame 16).countP (fun m => m.isUpdateState) = 1)
    ∧ ((animateEmits (tickStep animGame 16) 17).countP
        (fun m => m.isUpdateState) = 1) := by
  constructor <;> rfl

/-- C9 (amended).  Each owning session publishes its `PlayerState` exactly
once per `animate` tick, where the simulation tick is every rendered frame
with a live connection: the count of `updateState` emissions per frame is
one, at every clock time (no rate limit below the frame rate exists; only
shooting is throttled, by `tickFires`). -/
theorem state_published_once_per_frame (g : GameSlice) (t : Rat)
    (hpl : g.hasPlayer = true) (hid : g.networkId.isSome = true) :
    (animateEmits g t).countP (fun m => m.isUpdateState) = 1 := by
  obtain ⟨i, hi⟩ := Option.isSome_iff_exists.1 hid
  have hz : ∀ (l : List ClientEmit),
      (∀ m ∈ l, m.isUpdateState = false) →
        l.countP (fun m => m.isUpdateState) = 0 := by
    intro l hl
    rw [List.countP_eq_zero]
    intro m hm
    simp [hl m hm]
  simp only [animateEmits, hpl, if_true, hi]
  by_cases hh : g.isHost = true
  · by_cases he : ¬ enemyStatesOf g = []
    · rw [if_pos hh, if_pos he]
      rw [List.countP_append]
      rw [hz [ClientEmit.enemyState (enemyStatesOf g)]
        (by intro m hm; simp at hm; simp [hm, ClientEmit.isUpdateState])]
      rfl
    · rw [if_pos hh, if_neg he]
      rfl
  · rw [if_neg hh]
    rfl

/-- C9 witness: the idle connected client publishes exactly once in the
frame at `t = 16`. -/
theorem state_published_once_per_frame_witness :
    (animateEmits animGame 16).countP (fun m => m.isUpdateState) = 1 :=
  state_published_once_per_frame animGame 16 rfl rfl

end ThreeShooter
